import Mathlib

/-!
# Reconciliation of multicluster intent against an Istio config store

A shallow embedding of `multicluster/pkg/reconcile/reconcile.go`: the three entry points
`AddMulticlusterConfig`, `ModifyMulticlusterConfig` and `DeleteMulticlusterConfig`, each a
single pass over the converter output against a read-only store.

Modelling conventions.

* A Go slice is a `List`; the nil slice and the empty slice are both `[]`.
* A Go `error` is an `Option (GoError ε)`; `none` is the nil error.
* `store.Get` returns `(config, exists)`; here it returns an `Option`.
* The converter `model.ConvertBindingsAndExposures`, the constant
  `model.ProvenanceAnnotationKey` and the type `model.ClusterInfo` live in another package:
  they are parameters (`convert`, `key`, `κ`).
* `reflect.DeepEqual` handles nil itself and hands two non-nil payloads to a comparison
  that is a parameter of the payload type (`DeepValueEqual`); no property of it is assumed,
  since Go's comparison is not reflexive on a payload holding a NaN or a func.
* `log.Infof` only writes a log line and is left out.
-/

set_option autoImplicit false

namespace Reconcile

/-! ## Data model -/

/-- Config carries the fields of `istiomodel.Config` that the reconciler reads or returns:
the identity triple `Type`, `Name`, `Namespace` (the field `Type` is spelled `Typ`, since
`Type` is reserved), the `Annotations` map (an association list, looked up by key) and the
`Spec` payload, an interface value that may be nil (`none`). -/
structure Config (σ : Type) where
  Typ : String
  Name : String
  Namespace : String
  Annotations : List (String × String)
  Spec : Option σ
deriving DecidableEq, Repr

/-- ConfigStore is the one method of `istiomodel.ConfigStore` used here: `Get`, keyed by
type, name and namespace. -/
structure ConfigStore (σ : Type) where
  Get : String → String → String → Option (Config σ)

/-- GoError is a non-nil Go `error` value: one made outside this package (`external`), one
made by `fmt.Errorf` (`errorf`, with its message), or a `*multierror.Error` holding its
`Errors` slice (`multi`). -/
inductive GoError (ε : Type) where
  | external (e : ε)
  | errorf (msg : String)
  | multi (errors : List (GoError ε))

variable {σ κ ε : Type}

/-! ## Library functions used by the reconciler -/

/-- Expansion of the verbs `%s` and `%#v` of a format string over its characters: each verb
is replaced by the next argument, already rendered as a string; every other character is
copied. (A verb with no argument left is copied as it is; the reconciler never does that.) -/
def formatVerbs : List Char → List String → List Char
  | [], _ => []
  | '%' :: 's' :: rest, a :: args => a.data ++ formatVerbs rest args
  | '%' :: '#' :: 'v' :: rest, a :: args => a.data ++ formatVerbs rest args
  | c :: rest, args => c :: formatVerbs rest args

/-- Rendering of a format string, as `fmt.Sprintf` does it. -/
def fmt.Sprintf (format : String) (args : List String) : String :=
  ⟨formatVerbs format.data args⟩

/-- The error made by `fmt.Errorf`. -/
def fmt.Errorf (format : String) (args : List String) : GoError ε :=
  GoError.errorf (fmt.Sprintf format args)

/-- The errors an argument of `multierror.Append` contributes: those of a `*multierror.Error`
are flattened in, any other error is appended itself. -/
def multierror.flatten : GoError ε → List (GoError ε)
  | GoError.multi errors => errors
  | e => [e]

/-- Model of `multierror.Append(err, e)`: a `*multierror.Error` first argument is extended;
a nil one starts a fresh list; any other error becomes the first element of a fresh list. -/
def multierror.Append (err : Option (GoError ε)) (e : GoError ε) : GoError ε :=
  match err with
  | none => GoError.multi (multierror.flatten e)
  | some (GoError.multi errors) => GoError.multi (errors ++ multierror.flatten e)
  | some other => GoError.multi (other :: multierror.flatten e)

/-- DeepValueEqual is the comparison that `reflect.DeepEqual` makes of two non-nil payloads.
It belongs to the `reflect` package and is a parameter of the payload type. Nothing is
assumed of it: a payload holding a NaN or a func does not compare equal to itself. -/
class DeepValueEqual (σ : Type) where
  deepValueEqual : σ → σ → Bool

/-- Model of `reflect.DeepEqual` on two `Spec` interface values: when either is nil the
result is whether both are nil; two non-nil payloads are compared by `deepValueEqual`. -/
def reflect.DeepEqual [DeepValueEqual σ] (a b : Option σ) : Bool :=
  match a, b with
  | none, none => true
  | some x, some y => DeepValueEqual.deepValueEqual x y
  | _, _ => false

/-! ## The reconciler -/

/-- The loop of `AddMulticlusterConfig` (lines 32-41), with the two output slices as
accumulators. -/
def addLoop [DeepValueEqual σ] (store : ConfigStore σ) :
    List (Config σ) → List (Config σ) → List (Config σ) → List (Config σ) × List (Config σ)
  | [], outAdditions, outModifications => (outAdditions, outModifications)
  | istioConfig :: rest, outAdditions, outModifications =>
    match store.Get istioConfig.Typ istioConfig.Name istioConfig.Namespace with
    | none => addLoop store rest (outAdditions ++ [istioConfig]) outModifications
    | some orig =>
      if !reflect.DeepEqual istioConfig.Spec orig.Spec then
        addLoop store rest outAdditions (outModifications ++ [istioConfig])
      else
        addLoop store rest outAdditions outModifications

/-- AddMulticlusterConfig returns `(outAdditions, outModifications, err)`. -/
def AddMulticlusterConfig [DeepValueEqual σ]
    (convert : List (Config σ) → κ → List (Config σ) × Option (GoError ε))
    (store : ConfigStore σ) (newconfig : Config σ) (ci : κ) :
    List (Config σ) × List (Config σ) × Option (GoError ε) :=
  match convert [newconfig] ci with
  | (_, some err) => ([], [], some err)
  | (istioConfigs, none) =>
    let out := addLoop store istioConfigs [] []
    (out.1, out.2, none)

/-- Rendering of a config by the verb `%#v`; the Go-syntax text of a struct is produced by
the `fmt` package and is a parameter of the model. -/
abbrev GoSyntax (σ : Type) := Config σ → String

/-- The loop of `ModifyMulticlusterConfig` (lines 56-65): the first converted config that
the store does not hold ends the call with an error and a nil slice. -/
def modifyLoop [DeepValueEqual σ] (goSyntax : GoSyntax σ) (store : ConfigStore σ)
    (config : Config σ) :
    List (Config σ) → List (Config σ) → List (Config σ) × Option (GoError ε)
  | [], outModifications => (outModifications, none)
  | istioConfig :: rest, outModifications =>
    match store.Get istioConfig.Typ istioConfig.Name istioConfig.Namespace with
    | none =>
      ([], some (fmt.Errorf "Expected to modify Istio config but %#v makes an unknown config %#v"
        [goSyntax config, goSyntax istioConfig]))
    | some orig =>
      if !reflect.DeepEqual istioConfig.Spec orig.Spec then
        modifyLoop goSyntax store config rest (outModifications ++ [istioConfig])
      else
        modifyLoop goSyntax store config rest outModifications

/-- ModifyMulticlusterConfig returns `(outModifications, err)`. -/
def ModifyMulticlusterConfig [DeepValueEqual σ]
    (convert : List (Config σ) → κ → List (Config σ) × Option (GoError ε))
    (goSyntax : GoSyntax σ)
    (store : ConfigStore σ) (config : Config σ) (ci : κ) :
    List (Config σ) × Option (GoError ε) :=
  match convert [config] ci with
  | (_, some err) => ([], some err)
  | (istioConfigs, none) => modifyLoop goSyntax store config istioConfigs []

/-- The loop of `DeleteMulticlusterConfig` (lines 82-99), with the output slice and the
error variable as accumulators. A converted config missing from the store adds one error to
the aggregate; one found with the provenance annotation is appended with its `Spec` set to
nil; one found without the annotation is skipped. -/
def deleteLoop (key : String) (store : ConfigStore σ) (config : Config σ) :
    List (Config σ) → List (Config σ) → Option (GoError ε) →
      List (Config σ) × Option (GoError ε)
  | [], outDeletions, err => (outDeletions, err)
  | istioConfig :: rest, outDeletions, err =>
    match store.Get istioConfig.Typ istioConfig.Name istioConfig.Namespace with
    | none =>
      deleteLoop key store config rest outDeletions
        (some (multierror.Append err
          (fmt.Errorf "%s %s.%s should have been realized by %s %s.%s; skipping"
            [config.Typ, config.Name, config.Namespace,
             istioConfig.Typ, istioConfig.Name, istioConfig.Namespace])))
    | some orig =>
      match orig.Annotations.lookup key with
      | some _ =>
        deleteLoop key store config rest
          (outDeletions ++ [{ istioConfig with Spec := none }]) err
      | none => deleteLoop key store config rest outDeletions err

/-- DeleteMulticlusterConfig returns `(outDeletions, err)`. -/
def DeleteMulticlusterConfig
    (convert : List (Config σ) → κ → List (Config σ) × Option (GoError ε))
    (key : String)
    (store : ConfigStore σ) (config : Config σ) (ci : κ) :
    List (Config σ) × Option (GoError ε) :=
  match convert [config] ci with
  | (_, some err) => ([], some err)
  | (istioConfigs, none) => deleteLoop key store config istioConfigs [] none

/-! ## Vocabulary of the specification

The classes into which a converted config falls, read off a store snapshot. -/

/-- The identity of `c` is not found in the store. -/
def ConfigStore.missing (store : ConfigStore σ) (c : Config σ) : Bool :=
  (store.Get c.Typ c.Name c.Namespace).isNone

/-- The identity of `c` is found in the store, with a `Spec` that `reflect.DeepEqual` finds
different from that of `c`. -/
def ConfigStore.differs [DeepValueEqual σ] (store : ConfigStore σ) (c : Config σ) : Bool :=
  match store.Get c.Typ c.Name c.Namespace with
  | some orig => !reflect.DeepEqual c.Spec orig.Spec
  | none => false

/-- The identity of `c` is found in the store and the stored config has the provenance
annotation key among its annotations, whatever the value. -/
def ConfigStore.provenanced (key : String) (store : ConfigStore σ) (c : Config σ) : Bool :=
  match store.Get c.Typ c.Name c.Namespace with
  | some orig => (orig.Annotations.lookup key).isSome
  | none => false

/-- The config `c` with its `Spec` cleared and every other field kept. -/
def Config.clearSpec (c : Config σ) : Config σ :=
  { c with Spec := none }

/-- The text of the soft error recorded for a converted config missing on deletion. -/
def realizedMessage (config istioConfig : Config σ) : String :=
  config.Typ ++ " " ++ config.Name ++ "." ++ config.Namespace
    ++ " should have been realized by "
    ++ istioConfig.Typ ++ " " ++ istioConfig.Name ++ "." ++ istioConfig.Namespace
    ++ "; skipping"

/-- The error variable after the errors `es` were appended to `err`, one
`multierror.Append` each, in order. -/
def aggregate : Option (GoError ε) → List (GoError ε) → Option (GoError ε)
  | err, [] => err
  | err, e :: es => aggregate (some (multierror.Append err e)) es

/-- The causes an error value carries: none for nil, the `Errors` of an aggregate, the
error itself otherwise. -/
def causes : Option (GoError ε) → List (GoError ε)
  | none => []
  | some (GoError.multi errors) => errors
  | some e => [e]

/-- The store after `c` was written under its identity. The store is written by the caller,
outside the reconciler; this is the in-memory reading of that write. -/
def ConfigStore.put (store : ConfigStore σ) (c : Config σ) : ConfigStore σ :=
  ⟨fun t n ns =>
    if t = c.Typ ∧ n = c.Name ∧ ns = c.Namespace then some c else store.Get t n ns⟩

/-- The store after every config of `cs` was written, in order. -/
def ConfigStore.putAll (store : ConfigStore σ) (cs : List (Config σ)) : ConfigStore σ :=
  cs.foldl ConfigStore.put store

/-- The store after the config held under the identity of `c` was deleted. Like the write,
the deletion is done by the caller, outside the reconciler. -/
def ConfigStore.remove (store : ConfigStore σ) (c : Config σ) : ConfigStore σ :=
  ⟨fun t n ns =>
    if t = c.Typ ∧ n = c.Name ∧ ns = c.Namespace then none else store.Get t n ns⟩

/-- The store after the identity of every config of `cs` was deleted, in order. -/
def ConfigStore.removeAll (store : ConfigStore σ) (cs : List (Config σ)) : ConfigStore σ :=
  cs.foldl ConfigStore.remove store

/-- An in-memory store holding the configs of `cs`, each under its own identity (the first
one wins when two share an identity). -/
def ConfigStore.ofList (cs : List (Config σ)) : ConfigStore σ :=
  ⟨fun t n ns => cs.find? (fun c => decide (c.Typ = t ∧ c.Name = n ∧ c.Namespace = ns))⟩

/-! ## Example data

One intent object converted to three targets, against a store that holds the first with
another `Spec` and the provenance annotation (value empty), the second with the same `Spec`
and no annotation, and not the third. -/

/-- The payload of most examples is a number, compared by equality. -/
instance : DeepValueEqual Nat :=
  ⟨fun x y => decide (x = y)⟩

/-- A payload with one float64 field, holding a number or NaN. -/
inductive ExDouble where
  | nan
  | finite (n : Nat)
deriving DecidableEq, Repr

/-- Comparison of two float64 payloads as `reflect.DeepEqual` makes it: by `==`, under
which NaN is not equal to itself. -/
instance : DeepValueEqual ExDouble :=
  ⟨fun x y =>
    match x, y with
    | ExDouble.finite a, ExDouble.finite b => decide (a = b)
    | _, _ => false⟩

/-- The annotation key used in the examples. -/
def exKey : String := "provenance"

/-- The intent object of the examples. -/
def exIntent : Config Nat := ⟨"rsb", "b1", "ns", [], some 0⟩

/-- First target: held by the store with another `Spec`, provenanced. -/
def exVs : Config Nat := ⟨"vs", "a", "ns", [], some 1⟩

/-- Second target: held by the store with the same `Spec`, unprovenanced. -/
def exDr : Config Nat := ⟨"dr", "a", "ns", [], some 2⟩

/-- Third target: not held by the store. -/
def exSe : Config Nat := ⟨"se", "a", "ns", [], some 3⟩

/-- The store snapshot of the examples. -/
def exStore : ConfigStore Nat :=
  ConfigStore.ofList
    [⟨"vs", "a", "ns", [("provenance", "")], some 7⟩, ⟨"dr", "a", "ns", [("other", "x")], some 2⟩]

/-- A converter that succeeds with the three targets. -/
def exConvert : List (Config Nat) → Unit → List (Config Nat) × Option (GoError String) :=
  fun _ _ => ([exVs, exDr, exSe], none)

/-- A converter that succeeds with the two targets the store holds. -/
def exConvertHeld : List (Config Nat) → Unit → List (Config Nat) × Option (GoError String) :=
  fun _ _ => ([exVs, exDr], none)

/-- A converter that fails, handing back a partial output along with its error. -/
def exConvertFail : List (Config Nat) → Unit → List (Config Nat) × Option (GoError String) :=
  fun _ _ => ([exVs], some (GoError.external "conversion failed"))

/-- Two targets with one identity and different `Spec`s. -/
def exDupA : Config Nat := ⟨"vs", "a", "ns", [], some 1⟩

/-- The second target with the identity of `exDupA`. -/
def exDupB : Config Nat := ⟨"vs", "a", "ns", [], some 2⟩

/-- A converter that succeeds with the two targets sharing an identity. -/
def exConvertDup : List (Config Nat) → Unit → List (Config Nat) × Option (GoError String) :=
  fun _ _ => ([exDupA, exDupB], none)

/-- A store that holds nothing. -/
def exEmptyStore : ConfigStore Nat := ConfigStore.ofList []

/-- The example store with the annotations of every stored config dropped; identities and
`Spec`s are kept. -/
def exStoreBare : ConfigStore Nat :=
  ⟨fun t n ns => (exStore.Get t n ns).map (fun c => { c with Annotations := [] })⟩

/-- A target whose `Spec` holds a NaN. -/
def exNaN : Config ExDouble := ⟨"vs", "a", "ns", [], some ExDouble.nan⟩

/-- The intent object of the NaN example. -/
def exIntentD : Config ExDouble := ⟨"rsb", "b1", "ns", [], some (ExDouble.finite 0)⟩

/-- A converter that succeeds with the one target holding a NaN. -/
def exConvertNaN :
    List (Config ExDouble) → Unit → List (Config ExDouble) × Option (GoError String) :=
  fun _ _ => ([exNaN], none)

/-- A store of float64 payloads that holds nothing. -/
def exEmptyStoreD : ConfigStore ExDouble := ConfigStore.ofList []

/-- Rendering used for `%#v` in the NaN example: the identity of the config. -/
def exGoSyntaxD : GoSyntax ExDouble :=
  fun c => c.Typ ++ "/" ++ c.Name ++ "/" ++ c.Namespace

/-- Rendering used for `%#v` in the examples: the identity of the config. -/
def exGoSyntax : GoSyntax Nat :=
  fun c => c.Typ ++ "/" ++ c.Name ++ "/" ++ c.Namespace

/-! ## Characterisation of the three loops -/

theorem addLoop_eq [DeepValueEqual σ] (store : ConfigStore σ) (L adds mods : List (Config σ)) :
    addLoop store L adds mods =
      (adds ++ L.filter store.missing, mods ++ L.filter store.differs) := by
  induction L generalizing adds mods with
  | nil => simp [addLoop]
  | cons c rest ih =>
    cases hget : store.Get c.Typ c.Name c.Namespace with
    | none => simp [addLoop, hget, ih, ConfigStore.missing, ConfigStore.differs]
    | some orig =>
      cases hs : reflect.DeepEqual c.Spec orig.Spec <;>
        simp [addLoop, hget, ih, ConfigStore.missing, ConfigStore.differs, hs]

theorem modifyLoop_eq [DeepValueEqual σ] (goSyntax : GoSyntax σ) (store : ConfigStore σ)
    (config : Config σ) (L mods : List (Config σ)) :
    (modifyLoop goSyntax store config L mods : List (Config σ) × Option (GoError ε)) =
      match L.find? store.missing with
      | some c =>
        ([], some (fmt.Errorf "Expected to modify Istio config but %#v makes an unknown config %#v"
          [goSyntax config, goSyntax c]))
      | none => (mods ++ L.filter store.differs, none) := by
  induction L generalizing mods with
  | nil => simp [modifyLoop]
  | cons c rest ih =>
    cases hget : store.Get c.Typ c.Name c.Namespace with
    | none => simp [modifyLoop, hget, ConfigStore.missing]
    | some orig =>
      cases hs : reflect.DeepEqual c.Spec orig.Spec <;>
        simp [modifyLoop, hget, ih, ConfigStore.missing, ConfigStore.differs, hs]

theorem sprintf_realized (a b c d e f : String) :
    fmt.Sprintf "%s %s.%s should have been realized by %s %s.%s; skipping" [a, b, c, d, e, f] =
      a ++ " " ++ b ++ "." ++ c ++ " should have been realized by " ++ d ++ " " ++ e ++ "."
        ++ f ++ "; skipping" := by
  apply String.ext
  simp [fmt.Sprintf, formatVerbs]

theorem deleteLoop_eq (key : String) (store : ConfigStore σ) (config : Config σ)
    (L dels : List (Config σ)) (err : Option (GoError ε)) :
    deleteLoop key store config L dels err =
      (dels ++ (L.filter (store.provenanced key)).map Config.clearSpec,
       aggregate err ((L.filter store.missing).map
         (fun c => GoError.errorf (realizedMessage config c)))) := by
  induction L generalizing dels err with
  | nil => simp [deleteLoop, aggregate]
  | cons c rest ih =>
    cases hget : store.Get c.Typ c.Name c.Namespace with
    | none =>
      simp [deleteLoop, hget, ih, ConfigStore.missing, ConfigStore.provenanced, aggregate,
        fmt.Errorf, sprintf_realized, realizedMessage]
    | some orig =>
      cases hk : orig.Annotations.lookup key with
      | none =>
        simp [deleteLoop, hget, hk, ih, ConfigStore.missing, ConfigStore.provenanced]
      | some v =>
        simp [deleteLoop, hget, hk, ih, ConfigStore.missing, ConfigStore.provenanced,
          Config.clearSpec]

theorem aggregate_multi (es : List (GoError ε)) (msgs : List String) :
    aggregate (some (GoError.multi es)) (msgs.map GoError.errorf) =
      some (GoError.multi (es ++ msgs.map GoError.errorf)) := by
  induction msgs generalizing es with
  | nil => simp [aggregate]
  | cons m rest ih => simp [aggregate, multierror.Append, multierror.flatten, ih]

theorem aggregate_none (msgs : List String) :
    aggregate (none : Option (GoError ε)) (msgs.map GoError.errorf) =
      match msgs with
      | [] => none
      | _ :: _ => some (GoError.multi (msgs.map GoError.errorf)) := by
  cases msgs with
  | nil => simp [aggregate]
  | cons m rest => simp [aggregate, multierror.Append, multierror.flatten, aggregate_multi]

/-- The whole of `AddMulticlusterConfig` once conversion succeeded. -/
theorem add_eq [DeepValueEqual σ]
    (convert : List (Config σ) → κ → List (Config σ) × Option (GoError ε))
    (store : ConfigStore σ) (newconfig : Config σ) (ci : κ) (L : List (Config σ))
    (hconv : convert [newconfig] ci = (L, none)) :
    AddMulticlusterConfig convert store newconfig ci =
      (L.filter store.missing, L.filter store.differs, none) := by
  simp [AddMulticlusterConfig, hconv, addLoop_eq]

/-- The whole of `ModifyMulticlusterConfig` once conversion succeeded. -/
theorem modify_eq [DeepValueEqual σ]
    (convert : List (Config σ) → κ → List (Config σ) × Option (GoError ε))
    (goSyntax : GoSyntax σ)
    (store : ConfigStore σ) (config : Config σ) (ci : κ) (L : List (Config σ))
    (hconv : convert [config] ci = (L, none)) :
    ModifyMulticlusterConfig convert goSyntax store config ci =
      match L.find? store.missing with
      | some c =>
        ([], some (fmt.Errorf "Expected to modify Istio config but %#v makes an unknown config %#v"
          [goSyntax config, goSyntax c]))
      | none => (L.filter store.differs, none) := by
  simp [ModifyMulticlusterConfig, hconv, modifyLoop_eq]

/-- The whole of `DeleteMulticlusterConfig` once conversion succeeded. -/
theorem delete_eq
    (convert : List (Config σ) → κ → List (Config σ) × Option (GoError ε))
    (key : String)
    (store : ConfigStore σ) (config : Config σ) (ci : κ) (L : List (Config σ))
    (hconv : convert [config] ci = (L, none)) :
    DeleteMulticlusterConfig convert key store config ci =
      ((L.filter (store.provenanced key)).map Config.clearSpec,
       aggregate none ((L.filter store.missing).map
         (fun c => GoError.errorf (realizedMessage config c)))) := by
  simp [DeleteMulticlusterConfig, hconv, deleteLoop_eq]

/-! ## Reading the vocabulary -/

theorem clearSpec_provenanced (key : String) (store : ConfigStore σ) (c : Config σ) :
    store.provenanced key c.clearSpec = store.provenanced key c := rfl

theorem provenanced_iff (key : String) (store : ConfigStore σ) (c : Config σ) :
    store.provenanced key c = true ↔
      ∃ orig, store.Get c.Typ c.Name c.Namespace = some orig ∧
        (orig.Annotations.lookup key).isSome = true := by
  unfold ConfigStore.provenanced
  cases store.Get c.Typ c.Name c.Namespace <;> simp

theorem missing_iff (store : ConfigStore σ) (c : Config σ) :
    store.missing c = true ↔ store.Get c.Typ c.Name c.Namespace = none := by
  simp [ConfigStore.missing]

theorem differs_iff [DeepValueEqual σ] (store : ConfigStore σ) (c : Config σ) :
    store.differs c = true ↔
      ∃ orig, store.Get c.Typ c.Name c.Namespace = some orig ∧
        reflect.DeepEqual c.Spec orig.Spec = false := by
  unfold ConfigStore.differs
  cases store.Get c.Typ c.Name c.Namespace <;> simp

/-- For a payload type whose comparison is equality, `reflect.DeepEqual` is equality of the
`Spec` values. -/
theorem DeepEqual_iff_eq [DeepValueEqual σ]
    (hlawful : ∀ x y : σ, DeepValueEqual.deepValueEqual x y = true ↔ x = y)
    (a b : Option σ) :
    reflect.DeepEqual a b = true ↔ a = b := by
  cases a <;> cases b <;> simp [reflect.DeepEqual, hlawful]

/-- Every deletion is provenanced in the store, whatever the converter did. -/
theorem deletions_provenanced
    (convert : List (Config σ) → κ → List (Config σ) × Option (GoError ε))
    (key : String) (store : ConfigStore σ) (config : Config σ) (ci : κ) (d : Config σ)
    (hd : d ∈ (DeleteMulticlusterConfig convert key store config ci).1) :
    store.provenanced key d = true := by
  rcases hc : convert [config] ci with ⟨L, _ | e⟩
  · rw [delete_eq convert key store config ci L hc] at hd
    simp only [List.mem_map, List.mem_filter] at hd
    obtain ⟨c, ⟨_, hp⟩, rfl⟩ := hd
    rw [clearSpec_provenanced]; exact hp
  · simp [DeleteMulticlusterConfig, hc] at hd

/-- The error of `DeleteMulticlusterConfig` once conversion succeeded. -/
theorem delete_err_eq
    (convert : List (Config σ) → κ → List (Config σ) × Option (GoError ε))
    (key : String)
    (store : ConfigStore σ) (config : Config σ) (ci : κ) (L : List (Config σ))
    (hconv : convert [config] ci = (L, none)) :
    (DeleteMulticlusterConfig convert key store config ci).2 =
      match L.filter store.missing with
      | [] => none
      | m :: ms =>
        some (GoError.multi ((m :: ms).map (fun c => GoError.errorf (realizedMessage config c)))) := by
  rw [delete_eq convert key store config ci L hconv]
  have h := @aggregate_none ε ((L.filter store.missing).map (realizedMessage config))
  rw [List.map_map] at h
  show aggregate none (List.map (GoError.errorf ∘ realizedMessage config) _) = _
  rw [h]
  cases L.filter store.missing <;> simp

/-- Reading a store after writes: the last write under the identity wins, and an identity
that was not written reads as before. -/
theorem putAll_get (store : ConfigStore σ) (W : List (Config σ)) (t n ns : String) :
    (∃ w ∈ W, (w.Typ = t ∧ w.Name = n ∧ w.Namespace = ns) ∧
        (store.putAll W).Get t n ns = some w) ∨
      ((∀ w ∈ W, ¬ (w.Typ = t ∧ w.Name = n ∧ w.Namespace = ns)) ∧
        (store.putAll W).Get t n ns = store.Get t n ns) := by
  induction W generalizing store with
  | nil => right; simp [ConfigStore.putAll]
  | cons w rest ih =>
    have hstep : store.putAll (w :: rest) = (store.put w).putAll rest := rfl
    rw [hstep]
    rcases ih (store.put w) with ⟨o, ho, hid, hget⟩ | ⟨hnone, hget⟩
    · exact Or.inl ⟨o, List.mem_cons_of_mem _ ho, hid, hget⟩
    · by_cases hw : w.Typ = t ∧ w.Name = n ∧ w.Namespace = ns
      · left
        refine ⟨w, List.mem_cons_self _ _, hw, ?_⟩
        rw [hget]
        obtain ⟨h1, h2, h3⟩ := hw
        simp [ConfigStore.put, h1, h2, h3]
      · right
        refine ⟨?_, ?_⟩
        · intro x hx
          rcases List.mem_cons.1 hx with rfl | hx
          · exact hw
          · exact hnone x hx
        · rw [hget]
          have : ¬ (t = w.Typ ∧ n = w.Name ∧ ns = w.Namespace) :=
            fun h => hw ⟨h.1.symm, h.2.1.symm, h.2.2.symm⟩
          simp [ConfigStore.put, this]

/-- Converse of the idempotence of Add: against any store for which the call returns
nothing to add and nothing to modify, two converted configs sharing an identity are both
found, with `Spec`s that `reflect.DeepEqual` reports equal to the one stored. -/
theorem add_idempotent_only_if [DeepValueEqual σ]
    (convert : List (Config σ) → κ → List (Config σ) × Option (GoError ε))
    (store2 : ConfigStore σ) (newconfig : Config σ) (ci : κ) (L : List (Config σ))
    (hconv : convert [newconfig] ci = (L, none))
    (hempty : (AddMulticlusterConfig convert store2 newconfig ci).1 = [] ∧
      (AddMulticlusterConfig convert store2 newconfig ci).2.1 = []) :
    ∀ a ∈ L, ∀ b ∈ L,
      (a.Typ, a.Name, a.Namespace) = (b.Typ, b.Name, b.Namespace) →
        ∃ o, store2.Get a.Typ a.Name a.Namespace = some o ∧
          reflect.DeepEqual a.Spec o.Spec = true ∧ reflect.DeepEqual b.Spec o.Spec = true := by
  rw [add_eq convert store2 newconfig ci L hconv] at hempty
  simp only [List.filter_eq_nil_iff] at hempty
  obtain ⟨hm, hd⟩ := hempty
  have key : ∀ c ∈ L, ∃ o, store2.Get c.Typ c.Name c.Namespace = some o ∧
      reflect.DeepEqual c.Spec o.Spec = true := by
    intro c hc
    cases hg : store2.Get c.Typ c.Name c.Namespace with
    | none => exact absurd ((missing_iff store2 c).2 hg) (hm c hc)
    | some o =>
      refine ⟨o, rfl, ?_⟩
      by_contra hne
      exact hd c hc ((differs_iff store2 c).2 ⟨o, hg, Bool.eq_false_iff.2 hne⟩)
  intro a ha b hb hid
  simp only [Prod.mk.injEq] at hid
  obtain ⟨oa, hga, hsa⟩ := key a ha
  obtain ⟨ob, hgb, hsb⟩ := key b hb
  rw [← hid.1, ← hid.2.1, ← hid.2.2, hga] at hgb
  cases hgb
  exact ⟨oa, hga, hsa, hsb⟩

/-- The text `fmt.Sprintf` renders for the error of `ModifyMulticlusterConfig`. -/
theorem sprintf_unknown (a b : String) :
    fmt.Sprintf "Expected to modify Istio config but %#v makes an unknown config %#v" [a, b] =
      "Expected to modify Istio config but " ++ a ++ " makes an unknown config " ++ b := by
  apply String.ext
  simp [fmt.Sprintf, formatVerbs]

/-- After the additions and modifications of an Add call are written, every converted
config is found with a `Spec` that `reflect.DeepEqual` reports equal to its own, provided
it does so for any two converted configs sharing an identity. -/
theorem putAll_found_same [DeepValueEqual σ] (store : ConfigStore σ) (L W : List (Config σ))
    (hspec : ∀ a ∈ L, ∀ b ∈ L,
      (a.Typ, a.Name, a.Namespace) = (b.Typ, b.Name, b.Namespace) →
        reflect.DeepEqual a.Spec b.Spec = true)
    (hW : ∀ x, x ∈ W ↔ x ∈ L.filter store.missing ∨ x ∈ L.filter store.differs) :
    ∀ c ∈ L, ∃ o, (store.putAll W).Get c.Typ c.Name c.Namespace = some o ∧
      reflect.DeepEqual c.Spec o.Spec = true := by
  have hWL : ∀ w ∈ W, w ∈ L := by
    intro w hw
    rcases (hW w).1 hw with h | h
    · exact (List.mem_filter.1 h).1
    · exact (List.mem_filter.1 h).1
  intro c hc
  rcases putAll_get store W c.Typ c.Name c.Namespace with ⟨w, hw, hid, hget⟩ | ⟨hnone, hget⟩
  · refine ⟨w, hget, ?_⟩
    apply hspec c hc w (hWL w hw)
    simp [hid.1, hid.2.1, hid.2.2]
  · have hcW : c ∉ W := fun h => hnone c h ⟨rfl, rfl, rfl⟩
    rw [hW c] at hcW
    simp only [List.mem_filter, hc, true_and, not_or] at hcW
    obtain ⟨hm, hd⟩ := hcW
    cases hg : store.Get c.Typ c.Name c.Namespace with
    | none => exact absurd ((missing_iff store c).2 hg) hm
    | some o =>
      refine ⟨o, hget.trans hg, ?_⟩
      by_contra hne
      exact hd ((differs_iff store c).2 ⟨o, hg, Bool.eq_false_iff.2 hne⟩)

/-- Two stores with the same identities present find the same configs missing. -/
theorem missing_congr (store1 store2 : ConfigStore σ)
    (hsame : ∀ t n ns,
      (store1.Get t n ns).map Config.Spec = (store2.Get t n ns).map Config.Spec) :
    store1.missing = store2.missing := by
  funext c
  have h := hsame c.Typ c.Name c.Namespace
  unfold ConfigStore.missing
  cases h1 : store1.Get c.Typ c.Name c.Namespace <;>
    cases h2 : store2.Get c.Typ c.Name c.Namespace <;> simp [h1, h2] at h ⊢

/-- Two stores with the same identities present and the same `Spec`s under them find the
same configs different. -/
theorem differs_congr [DeepValueEqual σ] (store1 store2 : ConfigStore σ)
    (hsame : ∀ t n ns,
      (store1.Get t n ns).map Config.Spec = (store2.Get t n ns).map Config.Spec) :
    store1.differs = store2.differs := by
  funext c
  have h := hsame c.Typ c.Name c.Namespace
  unfold ConfigStore.differs
  cases h1 : store1.Get c.Typ c.Name c.Namespace <;>
    cases h2 : store2.Get c.Typ c.Name c.Namespace <;> simp [h1, h2] at h ⊢
  rw [h]

/-- An identity that was not deleted reads as before. -/
theorem removeAll_get_of_not_mem (store : ConfigStore σ) (D : List (Config σ))
    (t n ns : String)
    (h : ∀ d ∈ D, ¬ (d.Typ = t ∧ d.Name = n ∧ d.Namespace = ns)) :
    (store.removeAll D).Get t n ns = store.Get t n ns := by
  induction D generalizing store with
  | nil => rfl
  | cons d rest ih =>
    have hstep : store.removeAll (d :: rest) = (store.remove d).removeAll rest := rfl
    rw [hstep, ih (store.remove d) (fun x hx => h x (List.mem_cons_of_mem _ hx))]
    have hd : ¬ (t = d.Typ ∧ n = d.Name ∧ ns = d.Namespace) :=
      fun hh => h d (List.mem_cons_self _ _) ⟨hh.1.symm, hh.2.1.symm, hh.2.2.symm⟩
    simp [ConfigStore.remove, hd]

/-- An identity that was deleted is no longer found. -/
theorem removeAll_get_of_mem (store : ConfigStore σ) (D : List (Config σ))
    (t n ns : String)
    (h : ∃ d ∈ D, d.Typ = t ∧ d.Name = n ∧ d.Namespace = ns) :
    (store.removeAll D).Get t n ns = none := by
  induction D generalizing store with
  | nil => simp at h
  | cons d rest ih =>
    have hstep : store.removeAll (d :: rest) = (store.remove d).removeAll rest := rfl
    rw [hstep]
    by_cases hr : ∃ x ∈ rest, x.Typ = t ∧ x.Name = n ∧ x.Namespace = ns
    · exact ih (store.remove d) hr
    · have hd : d.Typ = t ∧ d.Name = n ∧ d.Namespace = ns := by
        obtain ⟨x, hx, hid⟩ := h
        rcases List.mem_cons.1 hx with rfl | hx
        · exact hid
        · exact absurd ⟨x, hx, hid⟩ hr
      rw [removeAll_get_of_not_mem (store.remove d) rest t n ns
        (fun x hx hid => hr ⟨x, hx, hid⟩)]
      simp [ConfigStore.remove, hd.1, hd.2.1, hd.2.2]

/-- Reading the store left by removing the deletions of a Delete call: a converted config
that was provenanced is now missing; any other reads as before. -/
theorem removeAll_deletions (key : String) (store : ConfigStore σ) (L : List (Config σ))
    (c : Config σ) (hc : c ∈ L) :
    (store.removeAll ((L.filter (store.provenanced key)).map Config.clearSpec)).Get
        c.Typ c.Name c.Namespace =
      if store.provenanced key c = true then none
      else store.Get c.Typ c.Name c.Namespace := by
  by_cases hp : store.provenanced key c = true
  · rw [if_pos hp]
    apply removeAll_get_of_mem
    exact ⟨c.clearSpec, List.mem_map.2 ⟨c, List.mem_filter.2 ⟨hc, hp⟩, rfl⟩, rfl, rfl, rfl⟩
  · rw [if_neg hp]
    apply removeAll_get_of_not_mem
    intro d hd hid
    obtain ⟨x, hx, rfl⟩ := List.mem_map.1 hd
    have hxp := (List.mem_filter.1 hx).2
    apply hp
    have h1 : x.Typ = c.Typ := hid.1
    have h2 : x.Name = c.Name := hid.2.1
    have h3 : x.Namespace = c.Namespace := hid.2.2
    unfold ConfigStore.provenanced at hxp ⊢
    rw [← h1, ← h2, ← h3]
    exact hxp

/-- Counting the elements in either of two classes that exclude each other. -/
theorem countP_or_of_disjoint {α : Type} (p q : α → Bool) (l : List α)
    (h : ∀ x ∈ l, ¬ (p x = true ∧ q x = true)) :
    l.countP (fun x => p x || q x) = l.countP p + l.countP q := by
  induction l with
  | nil => rfl
  | cons c rest ih =>
    have hrest := ih (fun x hx => h x (List.mem_cons_of_mem _ hx))
    have hc := h c (List.mem_cons_self _ _)
    simp only [List.countP_cons, hrest]
    cases hp : p c <;> cases hq : q c <;> simp [hp, hq] at hc ⊢ <;> omega

/-! ## The claims -/

/-- C1: when conversion succeeds with output `L`, `AddMulticlusterConfig` returns a nil
error, as additions the configs of `L` whose identity is not found in the store, and as
modifications those found with a `Spec` that `reflect.DeepEqual` finds different, both
unchanged and in the order of `L`; a config found with a `Spec` that `reflect.DeepEqual`
finds identical is in neither list. -/
theorem AddMulticlusterConfig_classification [DeepValueEqual σ]
    (convert : List (Config σ) → κ → List (Config σ) × Option (GoError ε))
    (store : ConfigStore σ) (newconfig : Config σ) (ci : κ) (L : List (Config σ))
    (hconv : convert [newconfig] ci = (L, none)) :
    AddMulticlusterConfig convert store newconfig ci =
        (L.filter (fun c => (store.Get c.Typ c.Name c.Namespace).isNone),
         L.filter (fun c =>
           match store.Get c.Typ c.Name c.Namespace with
           | some orig => !reflect.DeepEqual c.Spec orig.Spec
           | none => false),
         none) ∧
      ∀ c ∈ L, ∀ orig, store.Get c.Typ c.Name c.Namespace = some orig →
        reflect.DeepEqual c.Spec orig.Spec = true →
        c ∉ (AddMulticlusterConfig convert store newconfig ci).1 ∧
        c ∉ (AddMulticlusterConfig convert store newconfig ci).2.1 := by
  have h := add_eq convert store newconfig ci L hconv
  refine ⟨h, ?_⟩
  intro c _ orig hget hspec
  rw [h]
  simp [ConfigStore.missing, ConfigStore.differs, hget, hspec]

/-- Witness of C1 on the example data: the missing target is added, the target held with
another `Spec` is modified, the target held with the same `Spec` is in neither list. -/
theorem AddMulticlusterConfig_classification_witness :
    exConvert [exIntent] () = ([exVs, exDr, exSe], none) ∧
      AddMulticlusterConfig exConvert exStore exIntent () = ([exSe], [exVs], none) ∧
      exDr ∉ (AddMulticlusterConfig exConvert exStore exIntent ()).1 ∧
      exDr ∉ (AddMulticlusterConfig exConvert exStore exIntent ()).2.1 :=
  ⟨rfl,
   (AddMulticlusterConfig_classification exConvert exStore exIntent () [exVs, exDr, exSe]
     rfl).1.trans rfl,
   (AddMulticlusterConfig_classification exConvert exStore exIntent () [exVs, exDr, exSe]
     rfl).2 exDr (by decide) ⟨"dr", "a", "ns", [("other", "x")], some 2⟩ rfl rfl⟩

/-- C2: every config among the deletions returned by `DeleteMulticlusterConfig` has an
identity under which the store holds a config whose annotations contain the provenance key;
no deletion has the identity of a stored config lacking the key, and such a stored config
(held under its own identity) is itself never among the deletions. Nothing is assumed of
the converter or of the returned error. -/
theorem DeleteMulticlusterConfig_only_provenanced
    (convert : List (Config σ) → κ → List (Config σ) × Option (GoError ε))
    (key : String) (store : ConfigStore σ) (config : Config σ) (ci : κ) :
    (∀ d ∈ (DeleteMulticlusterConfig convert key store config ci).1,
        ∃ orig, store.Get d.Typ d.Name d.Namespace = some orig ∧
          (orig.Annotations.lookup key).isSome = true) ∧
      (∀ t n ns orig, store.Get t n ns = some orig → orig.Annotations.lookup key = none →
        ∀ d ∈ (DeleteMulticlusterConfig convert key store config ci).1,
          (d.Typ, d.Name, d.Namespace) ≠ (t, n, ns)) ∧
      (∀ orig, store.Get orig.Typ orig.Name orig.Namespace = some orig →
        orig.Annotations.lookup key = none →
          orig ∉ (DeleteMulticlusterConfig convert key store config ci).1) := by
  have h1 : ∀ d ∈ (DeleteMulticlusterConfig convert key store config ci).1,
      ∃ orig, store.Get d.Typ d.Name d.Namespace = some orig ∧
        (orig.Annotations.lookup key).isSome = true := fun d hd =>
    (provenanced_iff key store d).1 (deletions_provenanced convert key store config ci d hd)
  refine ⟨h1, ?_, ?_⟩
  · intro t n ns orig hget hnone d hd hid
    obtain ⟨o, ho, hk⟩ := h1 d hd
    simp only [Prod.mk.injEq] at hid
    obtain ⟨rfl, rfl, rfl⟩ := hid
    rw [hget] at ho
    cases ho
    simp [hnone] at hk
  · intro orig hget hnone hd
    obtain ⟨o, ho, hk⟩ := h1 orig hd
    rw [hget] at ho
    cases ho
    simp [hnone] at hk

/-- Witness of C2 on the example data: the unprovenanced target, held by the store, is not
among the deletions, with or without its `Spec`, although the error is not nil. -/
theorem DeleteMulticlusterConfig_only_provenanced_witness :
    (DeleteMulticlusterConfig exConvert exKey exStore exIntent ()).2 ≠ none ∧
      (∀ d ∈ (DeleteMulticlusterConfig exConvert exKey exStore exIntent ()).1,
        (d.Typ, d.Name, d.Namespace) ≠ ("dr", "a", "ns")) ∧
      (⟨"dr", "a", "ns", [("other", "x")], some 2⟩ : Config Nat) ∉
        (DeleteMulticlusterConfig exConvert exKey exStore exIntent ()).1 :=
  ⟨by simp [DeleteMulticlusterConfig, exConvert, deleteLoop, exStore, ConfigStore.ofList,
      exSe, exVs, exDr, exKey, List.lookup],
   (DeleteMulticlusterConfig_only_provenanced exConvert exKey exStore exIntent ()).2.1
     "dr" "a" "ns" ⟨"dr", "a", "ns", [("other", "x")], some 2⟩ rfl rfl,
   (DeleteMulticlusterConfig_only_provenanced exConvert exKey exStore exIntent ()).2.2
     ⟨"dr", "a", "ns", [("other", "x")], some 2⟩ rfl rfl⟩

/-- C3: when conversion succeeds and some converted config has an identity absent from the
store, `ModifyMulticlusterConfig` returns no modifications and a non-nil error, whatever
the configs before it were. -/
theorem ModifyMulticlusterConfig_all_or_nothing [DeepValueEqual σ]
    (convert : List (Config σ) → κ → List (Config σ) × Option (GoError ε))
    (goSyntax : GoSyntax σ)
    (store : ConfigStore σ) (config : Config σ) (ci : κ) (L : List (Config σ))
    (hconv : convert [config] ci = (L, none))
    (hmiss : ∃ c ∈ L, store.Get c.Typ c.Name c.Namespace = none) :
    (ModifyMulticlusterConfig convert goSyntax store config ci).1 = [] ∧
      (ModifyMulticlusterConfig convert goSyntax store config ci).2 ≠ none := by
  obtain ⟨c, hc, hget⟩ := hmiss
  rw [modify_eq convert goSyntax store config ci L hconv]
  cases hf : L.find? store.missing with
  | none =>
    have := List.find?_eq_none.1 hf c hc
    simp [ConfigStore.missing, hget] at this
  | some m => simp

/-- Witness of C3 on the example data: the third target is missing, and the first, found
with another `Spec` before it, is not returned. -/
theorem ModifyMulticlusterConfig_all_or_nothing_witness :
    exConvert [exIntent] () = ([exVs, exDr, exSe], none) ∧
      (∃ c ∈ [exVs, exDr, exSe], exStore.Get c.Typ c.Name c.Namespace = none) ∧
      exStore.differs exVs = true ∧
      (ModifyMulticlusterConfig exConvert exGoSyntax exStore exIntent ()).1 = [] ∧
      (ModifyMulticlusterConfig exConvert exGoSyntax exStore exIntent ()).2 ≠ none :=
  ⟨rfl, ⟨exSe, by decide, rfl⟩, rfl,
   ModifyMulticlusterConfig_all_or_nothing exConvert exGoSyntax exStore exIntent ()
     [exVs, exDr, exSe] rfl ⟨exSe, by decide, rfl⟩⟩

/-- C4: when conversion succeeds with output `L`, the deletions are, in the order of `L`,
one element for each config of `L` whose identity is found in the store with the provenance
key among the stored annotations; each is the converter output with its `Spec` set to nil
and the same `Type`, `Name` and `Namespace`. The value of the annotation plays no part: a
config found with the key bound to any value `v` has its cleared copy among the deletions. -/
theorem DeleteMulticlusterConfig_shape
    (convert : List (Config σ) → κ → List (Config σ) × Option (GoError ε))
    (key : String)
    (store : ConfigStore σ) (config : Config σ) (ci : κ) (L : List (Config σ))
    (hconv : convert [config] ci = (L, none)) :
    (DeleteMulticlusterConfig convert key store config ci).1 =
        (L.filter (fun c =>
          match store.Get c.Typ c.Name c.Namespace with
          | some orig => (orig.Annotations.lookup key).isSome
          | none => false)).map
          (fun c =>
            { Typ := c.Typ, Name := c.Name, Namespace := c.Namespace,
              Annotations := c.Annotations, Spec := none }) ∧
      ∀ c ∈ L, ∀ orig v, store.Get c.Typ c.Name c.Namespace = some orig →
        orig.Annotations.lookup key = some v →
          ({ c with Spec := none } : Config σ) ∈
            (DeleteMulticlusterConfig convert key store config ci).1 := by
  have h := delete_eq convert key store config ci L hconv
  refine ⟨by rw [h]; rfl, ?_⟩
  intro c hc orig v hget hv
  rw [h]
  simp only [List.mem_map, List.mem_filter]
  exact ⟨c, ⟨hc, by simp [ConfigStore.provenanced, hget, hv]⟩, rfl⟩

/-- C5: when conversion succeeds with output `L`, the error of `DeleteMulticlusterConfig`
is non-nil exactly when some config of `L` has an identity not found in the store; when
every config of `L` is found, provenanced or not, the error is nil. -/
theorem DeleteMulticlusterConfig_error_iff
    (convert : List (Config σ) → κ → List (Config σ) × Option (GoError ε))
    (key : String)
    (store : ConfigStore σ) (config : Config σ) (ci : κ) (L : List (Config σ))
    (hconv : convert [config] ci = (L, none)) :
    ((DeleteMulticlusterConfig convert key store config ci).2 ≠ none ↔
        ∃ c ∈ L, store.Get c.Typ c.Name c.Namespace = none) ∧
      ((∀ c ∈ L, ∃ orig, store.Get c.Typ c.Name c.Namespace = some orig) →
        (DeleteMulticlusterConfig convert key store config ci).2 = none) := by
  have h := delete_err_eq convert key store config ci L hconv
  have key1 : (DeleteMulticlusterConfig convert key store config ci).2 ≠ none ↔
      ∃ c ∈ L, store.Get c.Typ c.Name c.Namespace = none := by
    rw [h]
    cases hf : L.filter store.missing with
    | nil =>
      simp only [ne_eq, not_true_eq_false, false_iff, not_exists, not_and]
      intro c hc hget
      have : c ∈ L.filter store.missing := List.mem_filter.2 ⟨hc, (missing_iff store c).2 hget⟩
      rw [hf] at this
      simp at this
    | cons m ms =>
      simp only [ne_eq, reduceCtorEq, not_false_eq_true, true_iff]
      have : m ∈ L.filter store.missing := by rw [hf]; simp
      obtain ⟨hm, hmiss⟩ := List.mem_filter.1 this
      exact ⟨m, hm, (missing_iff store m).1 hmiss⟩
  refine ⟨key1, ?_⟩
  intro hall
  by_contra hne
  obtain ⟨c, hc, hget⟩ := key1.1 hne
  obtain ⟨orig, ho⟩ := hall c hc
  rw [hget] at ho
  cases ho

/-- C6: when conversion succeeds with output `L` and every config of `L` has its identity
found in the store, `ModifyMulticlusterConfig` returns a nil error and, as modifications,
the configs of `L` whose `Spec` `reflect.DeepEqual` finds different from the stored one,
unchanged and in the order of `L`; the result is empty when it finds every `Spec` identical
to the stored one. -/
theorem ModifyMulticlusterConfig_success [DeepValueEqual σ]
    (convert : List (Config σ) → κ → List (Config σ) × Option (GoError ε))
    (goSyntax : GoSyntax σ)
    (store : ConfigStore σ) (config : Config σ) (ci : κ) (L : List (Config σ))
    (hconv : convert [config] ci = (L, none))
    (hall : ∀ c ∈ L, ∃ orig, store.Get c.Typ c.Name c.Namespace = some orig) :
    ModifyMulticlusterConfig convert goSyntax store config ci =
        (L.filter (fun c =>
          match store.Get c.Typ c.Name c.Namespace with
          | some orig => !reflect.DeepEqual c.Spec orig.Spec
          | none => false), none) ∧
      ((∀ c ∈ L, ∀ orig, store.Get c.Typ c.Name c.Namespace = some orig →
          reflect.DeepEqual c.Spec orig.Spec = true) →
        (ModifyMulticlusterConfig convert goSyntax store config ci).1 = []) := by
  have hf : L.find? store.missing = none := by
    rw [List.find?_eq_none]
    intro c hc
    obtain ⟨orig, ho⟩ := hall c hc
    simp [ConfigStore.missing, ho]
  have h := modify_eq convert goSyntax store config ci L hconv
  rw [hf] at h
  refine ⟨h, ?_⟩
  intro hsame
  rw [h]
  simp only [List.filter_eq_nil_iff]
  intro c hc
  obtain ⟨orig, ho⟩ := hall c hc
  simp [ConfigStore.differs, ho, hsame c hc orig ho]

/-- Witness of C4 on the example data: only the first target is deleted, with its `Spec`
cleared; the store holds it with the provenance key bound to the empty string. -/
theorem DeleteMulticlusterConfig_shape_witness :
    exConvert [exIntent] () = ([exVs, exDr, exSe], none) ∧
      (DeleteMulticlusterConfig exConvert exKey exStore exIntent ()).1 =
        [⟨"vs", "a", "ns", [], none⟩] ∧
      exStore.Get "vs" "a" "ns" = some ⟨"vs", "a", "ns", [("provenance", "")], some 7⟩ :=
  ⟨rfl,
   (DeleteMulticlusterConfig_shape exConvert exKey exStore exIntent () [exVs, exDr, exSe]
     rfl).1.trans rfl,
   rfl⟩

/-- Witness of C5 on the example data: both targets are found, one of them unprovenanced,
and the error is nil. -/
theorem DeleteMulticlusterConfig_error_iff_witness :
    exConvertHeld [exIntent] () = ([exVs, exDr], none) ∧
      exStore.provenanced exKey exDr = false ∧
      (DeleteMulticlusterConfig exConvertHeld exKey exStore exIntent ()).2 = none :=
  ⟨rfl, rfl,
   (DeleteMulticlusterConfig_error_iff exConvertHeld exKey exStore exIntent () [exVs, exDr]
     rfl).2 (by
       intro c hc
       simp only [List.mem_cons, List.mem_singleton, List.not_mem_nil, or_false] at hc
       rcases hc with rfl | rfl <;> exact ⟨_, rfl⟩)⟩

/-- Witness of C6 on the example data: both targets are found and the one with another
`Spec` is returned. -/
theorem ModifyMulticlusterConfig_success_witness :
    exConvertHeld [exIntent] () = ([exVs, exDr], none) ∧
      (∀ c ∈ [exVs, exDr], ∃ orig, exStore.Get c.Typ c.Name c.Namespace = some orig) ∧
      ModifyMulticlusterConfig exConvertHeld exGoSyntax exStore exIntent () = ([exVs], none) :=
  have hall : ∀ c ∈ [exVs, exDr], ∃ orig, exStore.Get c.Typ c.Name c.Namespace = some orig := by
    intro c hc
    simp only [List.mem_cons, List.mem_singleton, List.not_mem_nil, or_false] at hc
    rcases hc with rfl | rfl <;> exact ⟨_, rfl⟩
  ⟨rfl, hall,
   (ModifyMulticlusterConfig_success exConvertHeld exGoSyntax exStore exIntent () [exVs, exDr]
     rfl hall).1.trans rfl⟩

/-- C7 (amended): when conversion succeeds with output `L` in which `reflect.DeepEqual`
reports equal the `Spec`s of any two configs sharing an identity `(Type, Name, Namespace)`,
a config and itself included (so no `Spec` of `L` holds a NaN, and configs of one identity
carry matching `Spec`s), and the additions and modifications of a first
`AddMulticlusterConfig` call are written to the store under their identities, in any order
`W`, a second call on the resulting store returns empty additions and modifications. -/
theorem AddMulticlusterConfig_idempotent [DeepValueEqual σ]
    (convert : List (Config σ) → κ → List (Config σ) × Option (GoError ε))
    (store : ConfigStore σ) (newconfig : Config σ) (ci : κ) (L W : List (Config σ))
    (hconv : convert [newconfig] ci = (L, none))
    (hspec : ∀ a ∈ L, ∀ b ∈ L,
      (a.Typ, a.Name, a.Namespace) = (b.Typ, b.Name, b.Namespace) →
        reflect.DeepEqual a.Spec b.Spec = true)
    (hW : ∀ x, x ∈ W ↔ x ∈ (AddMulticlusterConfig convert store newconfig ci).1 ∨
      x ∈ (AddMulticlusterConfig convert store newconfig ci).2.1) :
    (AddMulticlusterConfig convert (store.putAll W) newconfig ci).1 = [] ∧
      (AddMulticlusterConfig convert (store.putAll W) newconfig ci).2.1 = [] := by
  rw [add_eq convert store newconfig ci L hconv] at hW
  rw [add_eq convert (store.putAll W) newconfig ci L hconv]
  simp only [List.filter_eq_nil_iff]
  have hWL : ∀ w ∈ W, w ∈ L := by
    intro w hw
    rcases (hW w).1 hw with h | h
    · exact (List.mem_filter.1 h).1
    · exact (List.mem_filter.1 h).1
  have key : ∀ c ∈ L, ∃ o, (store.putAll W).Get c.Typ c.Name c.Namespace = some o ∧
      reflect.DeepEqual c.Spec o.Spec = true := by
    intro c hc
    rcases putAll_get store W c.Typ c.Name c.Namespace with ⟨w, hw, hid, hget⟩ | ⟨hnone, hget⟩
    · refine ⟨w, hget, ?_⟩
      apply hspec c hc w (hWL w hw)
      simp [hid.1, hid.2.1, hid.2.2]
    · have hcW : c ∉ W := fun h => hnone c h ⟨rfl, rfl, rfl⟩
      rw [hW c] at hcW
      simp only [List.mem_filter, hc, true_and, not_or] at hcW
      obtain ⟨hm, hd⟩ := hcW
      cases hg : store.Get c.Typ c.Name c.Namespace with
      | none => exact absurd ((missing_iff store c).2 hg) hm
      | some o =>
        refine ⟨o, hget.trans hg, ?_⟩
        by_contra hne
        exact hd ((differs_iff store c).2 ⟨o, hg, Bool.eq_false_iff.2 hne⟩)
  refine ⟨?_, ?_⟩
  · intro c hc
    obtain ⟨o, ho, _⟩ := key c hc
    simp [ConfigStore.missing, ho]
  · intro c hc
    obtain ⟨o, ho, hs⟩ := key c hc
    simp [ConfigStore.differs, ho, hs]

/-- C7 (as stated) fails, in two ways. First, the converter output holds two configs with
one identity and different `Spec`s and the store is empty: the first call adds both; once
they are written, in either order, the store holds the one written last and the second call
reports the other as a modification. Second, the converter output is one config whose
`Spec` holds a NaN: the first call adds it; once it is written the second call finds it,
`reflect.DeepEqual` does not report its `Spec` equal to the stored one, and it is reported
as a modification. -/
theorem AddMulticlusterConfig_idempotent_counterexample :
    exConvertDup [exIntent] () = ([exDupA, exDupB], none) ∧
      AddMulticlusterConfig exConvertDup exEmptyStore exIntent () =
        ([exDupA, exDupB], [], none) ∧
      ¬ ((AddMulticlusterConfig exConvertDup
            ((exEmptyStore.putAll
              (AddMulticlusterConfig exConvertDup exEmptyStore exIntent ()).1).putAll
              (AddMulticlusterConfig exConvertDup exEmptyStore exIntent ()).2.1)
            exIntent ()).1 = [] ∧
          (AddMulticlusterConfig exConvertDup
            ((exEmptyStore.putAll
              (AddMulticlusterConfig exConvertDup exEmptyStore exIntent ()).1).putAll
              (AddMulticlusterConfig exConvertDup exEmptyStore exIntent ()).2.1)
            exIntent ()).2.1 = []) ∧
      AddMulticlusterConfig exConvertDup (exEmptyStore.putAll [exDupA, exDupB]) exIntent () =
        ([], [exDupA], none) ∧
      AddMulticlusterConfig exConvertDup (exEmptyStore.putAll [exDupB, exDupA]) exIntent () =
        ([], [exDupB], none) ∧
      exConvertNaN [exIntentD] () = ([exNaN], none) ∧
      AddMulticlusterConfig exConvertNaN exEmptyStoreD exIntentD () = ([exNaN], [], none) ∧
      AddMulticlusterConfig exConvertNaN
          ((exEmptyStoreD.putAll
            (AddMulticlusterConfig exConvertNaN exEmptyStoreD exIntentD ()).1).putAll
            (AddMulticlusterConfig exConvertNaN exEmptyStoreD exIntentD ()).2.1)
          exIntentD () =
        ([], [exNaN], none) :=
  ⟨rfl, rfl, fun h => absurd h.2 (by decide), rfl, rfl, rfl, rfl, rfl⟩

/-- Witness of C7 (amended) on the example data: the three targets have distinct
identities and `Spec`s equal to themselves; after the missing one and the modified one are
written, nothing is left. -/
theorem AddMulticlusterConfig_idempotent_witness :
    exConvert [exIntent] () = ([exVs, exDr, exSe], none) ∧
      AddMulticlusterConfig exConvert exStore exIntent () = ([exSe], [exVs], none) ∧
      (AddMulticlusterConfig exConvert (exStore.putAll [exSe, exVs]) exIntent ()).1 = [] ∧
      (AddMulticlusterConfig exConvert (exStore.putAll [exSe, exVs]) exIntent ()).2.1 = [] :=
  ⟨rfl, rfl,
   AddMulticlusterConfig_idempotent exConvert exStore exIntent () [exVs, exDr, exSe]
     [exSe, exVs] rfl (by decide) (by
       intro x
       rw [show AddMulticlusterConfig exConvert exStore exIntent () = ([exSe], [exVs], none)
         from rfl]
       simp)⟩

/-- C8: for every input of `AddMulticlusterConfig`, a config `C` is in the additions only,
in the modifications only, or in neither, never in both; and no identity
`(Type, Name, Namespace)` occurs in both returned sequences. -/
theorem AddMulticlusterConfig_disjoint [DeepValueEqual σ]
    (convert : List (Config σ) → κ → List (Config σ) × Option (GoError ε))
    (store : ConfigStore σ) (newconfig : Config σ) (ci : κ) (C : Config σ) :
    ((C ∈ (AddMulticlusterConfig convert store newconfig ci).1 ∧
          C ∉ (AddMulticlusterConfig convert store newconfig ci).2.1) ∨
        (C ∉ (AddMulticlusterConfig convert store newconfig ci).1 ∧
          C ∈ (AddMulticlusterConfig convert store newconfig ci).2.1) ∨
        (C ∉ (AddMulticlusterConfig convert store newconfig ci).1 ∧
          C ∉ (AddMulticlusterConfig convert store newconfig ci).2.1)) ∧
      ¬ (C ∈ (AddMulticlusterConfig convert store newconfig ci).1 ∧
          C ∈ (AddMulticlusterConfig convert store newconfig ci).2.1) ∧
      ∀ a ∈ (AddMulticlusterConfig convert store newconfig ci).1,
        ∀ m ∈ (AddMulticlusterConfig convert store newconfig ci).2.1,
          (a.Typ, a.Name, a.Namespace) ≠ (m.Typ, m.Name, m.Namespace) := by
  have hid : ∀ a ∈ (AddMulticlusterConfig convert store newconfig ci).1,
      ∀ m ∈ (AddMulticlusterConfig convert store newconfig ci).2.1,
        (a.Typ, a.Name, a.Namespace) ≠ (m.Typ, m.Name, m.Namespace) := by
    rcases hc : convert [newconfig] ci with ⟨L, _ | e⟩
    · rw [add_eq convert store newconfig ci L hc]
      intro a ha m hm hid
      simp only [List.mem_filter] at ha hm
      simp only [Prod.mk.injEq] at hid
      obtain ⟨h1, h2, h3⟩ := hid
      have hmiss := (missing_iff store a).1 ha.2
      obtain ⟨orig, ho, _⟩ := (differs_iff store m).1 hm.2
      rw [h1, h2, h3, ho] at hmiss
      cases hmiss
    · simp [AddMulticlusterConfig, hc]
  have hnot : ¬ (C ∈ (AddMulticlusterConfig convert store newconfig ci).1 ∧
      C ∈ (AddMulticlusterConfig convert store newconfig ci).2.1) :=
    fun h => hid C h.1 C h.2 rfl
  refine ⟨?_, hnot, hid⟩
  by_cases ha : C ∈ (AddMulticlusterConfig convert store newconfig ci).1
  · exact Or.inl ⟨ha, fun hm => hnot ⟨ha, hm⟩⟩
  · by_cases hm : C ∈ (AddMulticlusterConfig convert store newconfig ci).2.1
    · exact Or.inr (Or.inl ⟨ha, hm⟩)
    · exact Or.inr (Or.inr ⟨ha, hm⟩)

/-- C9: when the conversion of the intent object fails with error `e`, each of the three
entry points returns exactly `e` and no config, whatever partial output the converter handed
back; the result is the same for every store, so the store is not consulted. -/
theorem converter_failure_is_hard [DeepValueEqual σ]
    (convert : List (Config σ) → κ → List (Config σ) × Option (GoError ε))
    (goSyntax : GoSyntax σ) (key : String)
    (store : ConfigStore σ) (config : Config σ) (ci : κ)
    (out : List (Config σ)) (e : GoError ε)
    (hconv : convert [config] ci = (out, some e)) :
    AddMulticlusterConfig convert store config ci = ([], [], some e) ∧
      ModifyMulticlusterConfig convert goSyntax store config ci = ([], some e) ∧
      DeleteMulticlusterConfig convert key store config ci = ([], some e) ∧
      ∀ store2 : ConfigStore σ,
        AddMulticlusterConfig convert store2 config ci =
            AddMulticlusterConfig convert store config ci ∧
          ModifyMulticlusterConfig convert goSyntax store2 config ci =
            ModifyMulticlusterConfig convert goSyntax store config ci ∧
          DeleteMulticlusterConfig convert key store2 config ci =
            DeleteMulticlusterConfig convert key store config ci := by
  simp [AddMulticlusterConfig, ModifyMulticlusterConfig, DeleteMulticlusterConfig, hconv]

/-- Witness of C9 on the example data: the failing converter hands back one config with its
error, and none of the entry points returns it. -/
theorem converter_failure_is_hard_witness :
    exConvertFail [exIntent] () = ([exVs], some (GoError.external "conversion failed")) ∧
      AddMulticlusterConfig exConvertFail exStore exIntent () =
        ([], [], some (GoError.external "conversion failed")) ∧
      ModifyMulticlusterConfig exConvertFail exGoSyntax exStore exIntent () =
        ([], some (GoError.external "conversion failed")) ∧
      DeleteMulticlusterConfig exConvertFail exKey exStore exIntent () =
        ([], some (GoError.external "conversion failed")) :=
  ⟨rfl,
   (converter_failure_is_hard exConvertFail exGoSyntax exKey exStore exIntent () [exVs]
     (GoError.external "conversion failed") rfl).1,
   (converter_failure_is_hard exConvertFail exGoSyntax exKey exStore exIntent () [exVs]
     (GoError.external "conversion failed") rfl).2.1,
   (converter_failure_is_hard exConvertFail exGoSyntax exKey exStore exIntent () [exVs]
     (GoError.external "conversion failed") rfl).2.2.1⟩

/-- C10: when conversion succeeds with output `L`, the causes of the error returned by
`DeleteMulticlusterConfig` are, in the order of `L`, one per config of `L` whose identity
is missing from the store, so their number is the number of missing configs; the message of
each names the `Type`, `Name` and `Namespace` of the intent object and of the missing
config; and the error is nil or the aggregate of these causes. -/
theorem DeleteMulticlusterConfig_aggregate
    (convert : List (Config σ) → κ → List (Config σ) × Option (GoError ε))
    (key : String)
    (store : ConfigStore σ) (config : Config σ) (ci : κ) (L : List (Config σ))
    (hconv : convert [config] ci = (L, none)) :
    causes (DeleteMulticlusterConfig convert key store config ci).2 =
        (L.filter (fun c => (store.Get c.Typ c.Name c.Namespace).isNone)).map
          (fun c => GoError.errorf
            (config.Typ ++ " " ++ config.Name ++ "." ++ config.Namespace
              ++ " should have been realized by "
              ++ c.Typ ++ " " ++ c.Name ++ "." ++ c.Namespace ++ "; skipping")) ∧
      (causes (DeleteMulticlusterConfig convert key store config ci).2).length =
        L.countP (fun c => (store.Get c.Typ c.Name c.Namespace).isNone) ∧
      ((DeleteMulticlusterConfig convert key store config ci).2 = none ∨
        (DeleteMulticlusterConfig convert key store config ci).2 =
          some (GoError.multi
            (causes (DeleteMulticlusterConfig convert key store config ci).2))) := by
  have h := delete_err_eq convert key store config ci L hconv
  have h1 : causes (DeleteMulticlusterConfig convert key store config ci).2 =
      (L.filter store.missing).map (fun c => GoError.errorf (realizedMessage config c)) := by
    rw [h]
    cases L.filter store.missing <;> simp [causes]
  refine ⟨h1, ?_, ?_⟩
  · rw [h1, List.length_map, List.countP_eq_length_filter]
    rfl
  · rw [h]
    cases L.filter store.missing <;> simp [causes]

/-- Witness of C10 on the example data: one target is missing and the aggregate has one
cause, naming the intent object and that target. -/
theorem DeleteMulticlusterConfig_aggregate_witness :
    exConvert [exIntent] () = ([exVs, exDr, exSe], none) ∧
      causes (DeleteMulticlusterConfig exConvert exKey exStore exIntent ()).2 =
        [GoError.errorf "rsb b1.ns should have been realized by se a.ns; skipping"] ∧
      (DeleteMulticlusterConfig exConvert exKey exStore exIntent ()).2 =
        some (GoError.multi
          [GoError.errorf "rsb b1.ns should have been realized by se a.ns; skipping"]) :=
  ⟨rfl,
   (DeleteMulticlusterConfig_aggregate exConvert exKey exStore exIntent () [exVs, exDr, exSe]
     rfl).1.trans rfl,
   rfl⟩

/-- C11: when conversion succeeds and some converted config is found in the store with the
provenance annotation, the deletions returned by `DeleteMulticlusterConfig` are not empty;
this also holds when another converted config is missing from the store, in which case the
deletions and a non-nil error are returned together. -/
theorem DeleteMulticlusterConfig_soft_error_keeps_deletions
    (convert : List (Config σ) → κ → List (Config σ) × Option (GoError ε))
    (key : String)
    (store : ConfigStore σ) (config : Config σ) (ci : κ) (L : List (Config σ))
    (hconv : convert [config] ci = (L, none))
    (hprov : ∃ c ∈ L, ∃ orig, store.Get c.Typ c.Name c.Namespace = some orig ∧
      (orig.Annotations.lookup key).isSome = true) :
    (DeleteMulticlusterConfig convert key store config ci).1 ≠ [] ∧
      ((∃ c ∈ L, store.Get c.Typ c.Name c.Namespace = none) →
        (DeleteMulticlusterConfig convert key store config ci).1 ≠ [] ∧
          (DeleteMulticlusterConfig convert key store config ci).2 ≠ none) := by
  obtain ⟨c, hc, hp⟩ := hprov
  have hmem : c.clearSpec ∈ (DeleteMulticlusterConfig convert key store config ci).1 := by
    rw [delete_eq convert key store config ci L hconv]
    simp only [List.mem_map, List.mem_filter]
    exact ⟨c, ⟨hc, (provenanced_iff key store c).2 hp⟩, rfl⟩
  have hne : (DeleteMulticlusterConfig convert key store config ci).1 ≠ [] :=
    List.ne_nil_of_mem hmem
  refine ⟨hne, fun hmiss => ⟨hne, ?_⟩⟩
  obtain ⟨m, hm, hget⟩ := hmiss
  rw [delete_err_eq convert key store config ci L hconv]
  have hmf : m ∈ L.filter store.missing :=
    List.mem_filter.2 ⟨hm, (missing_iff store m).2 hget⟩
  cases hf : L.filter store.missing with
  | nil => rw [hf] at hmf; simp at hmf
  | cons x xs => simp

/-- Witness of C11 on the example data: the first target is provenanced, the third is
missing, and both the deletions and the error are populated. -/
theorem DeleteMulticlusterConfig_soft_error_keeps_deletions_witness :
    exConvert [exIntent] () = ([exVs, exDr, exSe], none) ∧
      exStore.Get "se" "a" "ns" = none ∧
      (DeleteMulticlusterConfig exConvert exKey exStore exIntent ()).1 ≠ [] ∧
      (DeleteMulticlusterConfig exConvert exKey exStore exIntent ()).2 ≠ none :=
  ⟨rfl, rfl,
   (DeleteMulticlusterConfig_soft_error_keeps_deletions exConvert exKey exStore exIntent ()
     [exVs, exDr, exSe] rfl ⟨exVs, by decide, _, rfl, rfl⟩).2 ⟨exSe, by decide, rfl⟩⟩

/-- C12: when conversion succeeds and some converted config is missing from the store, the
error of `ModifyMulticlusterConfig` is the `fmt.Errorf` error whose message carries the
`%#v` rendering of the intent object passed to the call and that of a converted config `c`,
and `c` is the first config of the converter output whose identity is not found: every
config before it is found. -/
theorem ModifyMulticlusterConfig_error_names_first_missing [DeepValueEqual σ]
    (convert : List (Config σ) → κ → List (Config σ) × Option (GoError ε))
    (goSyntax : GoSyntax σ)
    (store : ConfigStore σ) (config : Config σ) (ci : κ) (L : List (Config σ))
    (hconv : convert [config] ci = (L, none))
    (hmiss : ∃ c ∈ L, store.Get c.Typ c.Name c.Namespace = none) :
    ∃ pre c post, L = pre ++ c :: post ∧
      (∀ p ∈ pre, store.Get p.Typ p.Name p.Namespace ≠ none) ∧
      store.Get c.Typ c.Name c.Namespace = none ∧
      (ModifyMulticlusterConfig convert goSyntax store config ci).2 =
        some (GoError.errorf
          ("Expected to modify Istio config but " ++ goSyntax config
            ++ " makes an unknown config " ++ goSyntax c)) := by
  obtain ⟨m, hm, hget⟩ := hmiss
  cases hf : L.find? store.missing with
  | none =>
    have := List.find?_eq_none.1 hf m hm
    simp [ConfigStore.missing, hget] at this
  | some c =>
    obtain ⟨hc, pre, post, hL, hpre⟩ := List.find?_eq_some.1 hf
    refine ⟨pre, c, post, hL, ?_, (missing_iff store c).1 hc, ?_⟩
    · intro p hp hnone
      have := hpre p hp
      simp [(missing_iff store p).2 hnone] at this
    · rw [modify_eq convert goSyntax store config ci L hconv, hf]
      simp [fmt.Errorf, sprintf_unknown]

/-- Witness of C12 on the example data: the error names the intent object and the third
target, the only one missing. -/
theorem ModifyMulticlusterConfig_error_names_first_missing_witness :
    exConvert [exIntent] () = ([exVs, exDr, exSe], none) ∧
      (ModifyMulticlusterConfig exConvert exGoSyntax exStore exIntent ()).2 =
        some (GoError.errorf
          "Expected to modify Istio config but rsb/b1/ns makes an unknown config se/a/ns") ∧
      ∃ pre c post, [exVs, exDr, exSe] = pre ++ c :: post ∧
        (∀ p ∈ pre, exStore.Get p.Typ p.Name p.Namespace ≠ none) ∧
        exStore.Get c.Typ c.Name c.Namespace = none ∧
        (ModifyMulticlusterConfig exConvert exGoSyntax exStore exIntent ()).2 =
          some (GoError.errorf
            ("Expected to modify Istio config but " ++ exGoSyntax exIntent
              ++ " makes an unknown config " ++ exGoSyntax c)) :=
  ⟨rfl, rfl,
   ModifyMulticlusterConfig_error_names_first_missing exConvert exGoSyntax exStore exIntent ()
     [exVs, exDr, exSe] rfl ⟨exSe, by decide, rfl⟩⟩

/-- C13 (amended): `ModifyMulticlusterConfig` returns the modified configurations and never
a new one. When conversion succeeds with output `L`, the call succeeds exactly when every
config of `L` has its identity in the store, and then it returns every config of `L` whose
`Spec` `reflect.DeepEqual` finds different from the stored one; every config it returns is
held by the store; and when some config of `L` is new the call returns no config and an
error. -/
theorem ModifyMulticlusterConfig_returns_modified_only [DeepValueEqual σ]
    (convert : List (Config σ) → κ → List (Config σ) × Option (GoError ε))
    (goSyntax : GoSyntax σ)
    (store : ConfigStore σ) (config : Config σ) (ci : κ) (L : List (Config σ))
    (hconv : convert [config] ci = (L, none)) :
    ((ModifyMulticlusterConfig convert goSyntax store config ci).2 = none ↔
        ∀ c ∈ L, ∃ orig, store.Get c.Typ c.Name c.Namespace = some orig) ∧
      ((ModifyMulticlusterConfig convert goSyntax store config ci).2 = none →
        ∀ c ∈ L, ∀ orig, store.Get c.Typ c.Name c.Namespace = some orig →
          reflect.DeepEqual c.Spec orig.Spec = false →
            c ∈ (ModifyMulticlusterConfig convert goSyntax store config ci).1) ∧
      (∀ c ∈ (ModifyMulticlusterConfig convert goSyntax store config ci).1,
        c ∈ L ∧ ∃ orig, store.Get c.Typ c.Name c.Namespace = some orig) ∧
      ((∃ c ∈ L, store.Get c.Typ c.Name c.Namespace = none) →
        (ModifyMulticlusterConfig convert goSyntax store config ci).1 = [] ∧
          (ModifyMulticlusterConfig convert goSyntax store config ci).2 ≠ none) := by
  rw [modify_eq convert goSyntax store config ci L hconv]
  cases hf : L.find? store.missing with
  | none =>
    have hall : ∀ c ∈ L, ∃ orig, store.Get c.Typ c.Name c.Namespace = some orig := by
      intro c hc
      have h := List.find?_eq_none.1 hf c hc
      cases hg : store.Get c.Typ c.Name c.Namespace with
      | none => exact absurd ((missing_iff store c).2 hg) h
      | some orig => exact ⟨orig, rfl⟩
    refine ⟨⟨fun _ => hall, fun _ => rfl⟩, ?_, ?_, ?_⟩
    · intro _ c hc orig hget hne
      exact List.mem_filter.2 ⟨hc, (differs_iff store c).2 ⟨orig, hget, hne⟩⟩
    · intro c hc
      obtain ⟨hcL, hd⟩ := List.mem_filter.1 hc
      obtain ⟨orig, hget, _⟩ := (differs_iff store c).1 hd
      exact ⟨hcL, orig, hget⟩
    · rintro ⟨c, hc, hget⟩
      obtain ⟨orig, ho⟩ := hall c hc
      rw [hget] at ho
      cases ho
  | some m =>
    obtain ⟨hm, pre, post, hL, _⟩ := List.find?_eq_some.1 hf
    have hmL : m ∈ L := by rw [hL]; simp
    have hmget := (missing_iff store m).1 hm
    refine ⟨⟨fun h => (by cases h), fun hall => ?_⟩, fun h => (by cases h), ?_, fun _ => ?_⟩
    · obtain ⟨orig, ho⟩ := hall m hmL
      rw [hmget] at ho
      cases ho
    · intro c hc
      simp at hc
    · simp

/-- C13 (as stated) fails: on the example data the third target is new and the first is held
with another `Spec`. Modify returns no config and an error, so the call does not succeed
and the new target is not returned; Add, on the same input, returns the new target and the
modified one. -/
theorem ModifyMulticlusterConfig_rejects_new :
    exConvert [exIntent] () = ([exVs, exDr, exSe], none) ∧
      exStore.Get exSe.Typ exSe.Name exSe.Namespace = none ∧
      exStore.differs exVs = true ∧
      ModifyMulticlusterConfig exConvert exGoSyntax exStore exIntent () =
        ([], some (GoError.errorf
          "Expected to modify Istio config but rsb/b1/ns makes an unknown config se/a/ns")) ∧
      exSe ∉ (ModifyMulticlusterConfig exConvert exGoSyntax exStore exIntent ()).1 ∧
      (ModifyMulticlusterConfig exConvert exGoSyntax exStore exIntent ()).2 ≠ none ∧
      AddMulticlusterConfig exConvert exStore exIntent () = ([exSe], [exVs], none) :=
  ⟨rfl, rfl, rfl, rfl, by decide, fun h => (by cases h), rfl⟩

/-- Witness of C13 (amended) on the example data: both targets are held, the call succeeds
and returns the one held with another `Spec`. -/
theorem ModifyMulticlusterConfig_returns_modified_only_witness :
    exConvertHeld [exIntent] () = ([exVs, exDr], none) ∧
      (ModifyMulticlusterConfig exConvertHeld exGoSyntax exStore exIntent ()).2 = none ∧
      exVs ∈ (ModifyMulticlusterConfig exConvertHeld exGoSyntax exStore exIntent ()).1 :=
  ⟨rfl, rfl,
   (ModifyMulticlusterConfig_returns_modified_only exConvertHeld exGoSyntax exStore exIntent ()
     [exVs, exDr] rfl).2.1 rfl exVs (by decide)
     ⟨"vs", "a", "ns", [("provenance", "")], some 7⟩ rfl rfl⟩

/-- C14: when conversion succeeds, `ModifyMulticlusterConfig` returns a nil error exactly
when `AddMulticlusterConfig` on the same inputs returns empty additions, and in that case
the two calls return the same modifications. -/
theorem ModifyMulticlusterConfig_agrees_with_Add [DeepValueEqual σ]
    (convert : List (Config σ) → κ → List (Config σ) × Option (GoError ε))
    (goSyntax : GoSyntax σ)
    (store : ConfigStore σ) (config : Config σ) (ci : κ) (L : List (Config σ))
    (hconv : convert [config] ci = (L, none)) :
    ((ModifyMulticlusterConfig convert goSyntax store config ci).2 = none ↔
        (AddMulticlusterConfig convert store config ci).1 = []) ∧
      ((ModifyMulticlusterConfig convert goSyntax store config ci).2 = none →
        (ModifyMulticlusterConfig convert goSyntax store config ci).1 =
          (AddMulticlusterConfig convert store config ci).2.1) := by
  rw [modify_eq convert goSyntax store config ci L hconv,
    add_eq convert store config ci L hconv]
  cases hf : L.find? store.missing with
  | none =>
    have : L.filter store.missing = [] := by
      rw [List.filter_eq_nil_iff]
      exact List.find?_eq_none.1 hf
    simp [this]
  | some c =>
    obtain ⟨hc, pre, post, hL, _⟩ := List.find?_eq_some.1 hf
    have hmem : c ∈ L.filter store.missing :=
      List.mem_filter.2 ⟨by rw [hL]; simp, hc⟩
    have : L.filter store.missing ≠ [] := List.ne_nil_of_mem hmem
    simp [this]

/-- Witness of C14 on the example data: with both targets held, Add has nothing to add,
Modify succeeds and the modifications agree. -/
theorem ModifyMulticlusterConfig_agrees_with_Add_witness :
    exConvertHeld [exIntent] () = ([exVs, exDr], none) ∧
      (AddMulticlusterConfig exConvertHeld exStore exIntent ()).1 = [] ∧
      (ModifyMulticlusterConfig exConvertHeld exGoSyntax exStore exIntent ()).2 = none ∧
      (ModifyMulticlusterConfig exConvertHeld exGoSyntax exStore exIntent ()).1 =
        (AddMulticlusterConfig exConvertHeld exStore exIntent ()).2.1 :=
  ⟨rfl, rfl, rfl,
   (ModifyMulticlusterConfig_agrees_with_Add exConvertHeld exGoSyntax exStore exIntent ()
     [exVs, exDr] rfl).2 rfl⟩

/-- C15 (amended): when conversion succeeds with output `L` of pairwise distinct identities
in which `reflect.DeepEqual` reports every `Spec` equal to itself (none holds a NaN), and
the additions and modifications returned by `AddMulticlusterConfig` are written into the
store under their identities (in any order `W`), every config of `L` is found in the
resulting store with a `Spec` that `reflect.DeepEqual` reports equal to its own, and
`ModifyMulticlusterConfig` on that store with the same intent returns a nil error and no
modifications. -/
theorem AddMulticlusterConfig_then_Modify_converges [DeepValueEqual σ]
    (convert : List (Config σ) → κ → List (Config σ) × Option (GoError ε))
    (goSyntax : GoSyntax σ)
    (store : ConfigStore σ) (config : Config σ) (ci : κ) (L W : List (Config σ))
    (hconv : convert [config] ci = (L, none))
    (hdistinct : L.Pairwise (fun a b =>
      (a.Typ, a.Name, a.Namespace) ≠ (b.Typ, b.Name, b.Namespace)))
    (hrefl : ∀ c ∈ L, reflect.DeepEqual c.Spec c.Spec = true)
    (hW : ∀ x, x ∈ W ↔ x ∈ (AddMulticlusterConfig convert store config ci).1 ∨
      x ∈ (AddMulticlusterConfig convert store config ci).2.1) :
    (∀ c ∈ L, ∃ o, (store.putAll W).Get c.Typ c.Name c.Namespace = some o ∧
        reflect.DeepEqual c.Spec o.Spec = true) ∧
      ModifyMulticlusterConfig convert goSyntax (store.putAll W) config ci = ([], none) := by
  rw [add_eq convert store config ci L hconv] at hW
  have hspec : ∀ a ∈ L, ∀ b ∈ L,
      (a.Typ, a.Name, a.Namespace) = (b.Typ, b.Name, b.Namespace) →
        reflect.DeepEqual a.Spec b.Spec = true := by
    intro a ha b hb hid
    by_cases hab : a = b
    · rw [← hab]
      exact hrefl a ha
    · have hsym : Symmetric (fun a b : Config σ =>
          (a.Typ, a.Name, a.Namespace) ≠ (b.Typ, b.Name, b.Namespace)) :=
        fun _ _ hxy h => hxy h.symm
      exact absurd hid (List.Pairwise.forall hsym hdistinct ha hb hab)
  have key := putAll_found_same store L W hspec hW
  refine ⟨key, ?_⟩
  rw [modify_eq convert goSyntax (store.putAll W) config ci L hconv]
  have hf : L.find? (store.putAll W).missing = none := by
    rw [List.find?_eq_none]
    intro c hc
    obtain ⟨o, ho, _⟩ := key c hc
    simp [ConfigStore.missing, ho]
  have hd : L.filter (store.putAll W).differs = [] := by
    rw [List.filter_eq_nil_iff]
    intro c hc
    obtain ⟨o, ho, hs⟩ := key c hc
    simp [ConfigStore.differs, ho, hs]
  rw [hf, hd]

/-- C15 (as stated) fails: the converter output is one config whose `Spec` holds a NaN and
the store is empty. Add returns it as an addition; once it is written the store holds it,
yet `reflect.DeepEqual` does not report the stored `Spec` equal to the converted one, and
Modify returns the config as a modification. -/
theorem AddMulticlusterConfig_then_Modify_converges_counterexample :
    exConvertNaN [exIntentD] () = ([exNaN], none) ∧
      [exNaN].Pairwise (fun a b =>
        (a.Typ, a.Name, a.Namespace) ≠ (b.Typ, b.Name, b.Namespace)) ∧
      AddMulticlusterConfig exConvertNaN exEmptyStoreD exIntentD () = ([exNaN], [], none) ∧
      ((exEmptyStoreD.putAll [exNaN]).putAll []).Get exNaN.Typ exNaN.Name exNaN.Namespace =
        some exNaN ∧
      reflect.DeepEqual exNaN.Spec exNaN.Spec = false ∧
      ModifyMulticlusterConfig exConvertNaN exGoSyntaxD
          ((exEmptyStoreD.putAll
            (AddMulticlusterConfig exConvertNaN exEmptyStoreD exIntentD ()).1).putAll
            (AddMulticlusterConfig exConvertNaN exEmptyStoreD exIntentD ()).2.1)
          exIntentD () =
        ([exNaN], none) :=
  ⟨rfl, by decide, rfl, rfl, rfl, rfl⟩

/-- Witness of C15 (amended) on the example data: once the added and the modified target are
written, all three targets are found with their own `Spec` and Modify has nothing left. -/
theorem AddMulticlusterConfig_then_Modify_converges_witness :
    exConvert [exIntent] () = ([exVs, exDr, exSe], none) ∧
      AddMulticlusterConfig exConvert exStore exIntent () = ([exSe], [exVs], none) ∧
      (∀ c ∈ [exVs, exDr, exSe],
        ∃ o, (exStore.putAll [exSe, exVs]).Get c.Typ c.Name c.Namespace = some o ∧
          reflect.DeepEqual c.Spec o.Spec = true) ∧
      ModifyMulticlusterConfig exConvert exGoSyntax (exStore.putAll [exSe, exVs]) exIntent () =
        ([], none) :=
  ⟨rfl, rfl,
   AddMulticlusterConfig_then_Modify_converges exConvert exGoSyntax exStore exIntent ()
     [exVs, exDr, exSe] [exSe, exVs] rfl (by decide) (by decide) (by
       intro x
       rw [show AddMulticlusterConfig exConvert exStore exIntent () = ([exSe], [exVs], none)
         from rfl]
       simp)⟩

/-- C16: `AddMulticlusterConfig` and `ModifyMulticlusterConfig` read only the presence and
the `Spec` of stored configs: on two stores that hold the same identities with the same
`Spec`s, whatever the other fields of the stored configs, both calls return the same
configs and the same error; and a converted config whose stored counterpart has a `Spec`
that `reflect.DeepEqual` reports equal is never reported as a modification, whatever its
annotations. -/
theorem Add_Modify_compare_Spec_only [DeepValueEqual σ]
    (convert : List (Config σ) → κ → List (Config σ) × Option (GoError ε))
    (goSyntax : GoSyntax σ)
    (store1 store2 : ConfigStore σ) (config : Config σ) (ci : κ)
    (hsame : ∀ t n ns,
      (store1.Get t n ns).map Config.Spec = (store2.Get t n ns).map Config.Spec) :
    AddMulticlusterConfig convert store1 config ci =
        AddMulticlusterConfig convert store2 config ci ∧
      ModifyMulticlusterConfig convert goSyntax store1 config ci =
        ModifyMulticlusterConfig convert goSyntax store2 config ci ∧
      ∀ c orig, store1.Get c.Typ c.Name c.Namespace = some orig →
        reflect.DeepEqual c.Spec orig.Spec = true →
        c ∉ (AddMulticlusterConfig convert store1 config ci).2.1 ∧
          c ∉ (ModifyMulticlusterConfig convert goSyntax store1 config ci).1 := by
  have hm := missing_congr store1 store2 hsame
  have hd := differs_congr store1 store2 hsame
  rcases hc : convert [config] ci with ⟨L, _ | e⟩
  · rw [add_eq convert store1 config ci L hc, add_eq convert store2 config ci L hc,
      modify_eq convert goSyntax store1 config ci L hc,
      modify_eq convert goSyntax store2 config ci L hc, hm, hd]
    refine ⟨rfl, rfl, ?_⟩
    intro c orig hget hs
    have hnd : store2.differs c = false := by
      rw [← hd]; simp [ConfigStore.differs, hget, hs]
    constructor
    · simp [List.mem_filter, hnd]
    · cases L.find? store2.missing <;> simp [List.mem_filter, hnd]
  · simp [AddMulticlusterConfig, ModifyMulticlusterConfig, hc]

/-- Witness of C16 on the example data: dropping every stored annotation changes neither
result, and the target held with the same `Spec` and other annotations is not modified. -/
theorem Add_Modify_compare_Spec_only_witness :
    exStore.Get "dr" "a" "ns" = some ⟨"dr", "a", "ns", [("other", "x")], some 2⟩ ∧
      exStoreBare.Get "dr" "a" "ns" = some ⟨"dr", "a", "ns", [], some 2⟩ ∧
      AddMulticlusterConfig exConvert exStore exIntent () =
        AddMulticlusterConfig exConvert exStoreBare exIntent () ∧
      ModifyMulticlusterConfig exConvert exGoSyntax exStore exIntent () =
        ModifyMulticlusterConfig exConvert exGoSyntax exStoreBare exIntent () ∧
      exDr ∉ (AddMulticlusterConfig exConvert exStore exIntent ()).2.1 :=
  have h := Add_Modify_compare_Spec_only exConvert exGoSyntax exStore exStoreBare exIntent ()
    (fun t n ns => by
      show _ = Option.map Config.Spec (Option.map _ (exStore.Get t n ns))
      cases exStore.Get t n ns <;> rfl)
  ⟨rfl, rfl, h.1, h.2.1,
   (h.2.2 exDr ⟨"dr", "a", "ns", [("other", "x")], some 2⟩ rfl rfl).1⟩

/-- C17: when conversion succeeds with output `L` and every identity among the deletions
returned by `DeleteMulticlusterConfig` is removed from the store, a second call on the
resulting store returns no deletions, and the causes of its error are, in the order of `L`,
one for each config of `L` that was deleted or was already missing; their number is the
number of deletions plus the number of causes of the first call. -/
theorem DeleteMulticlusterConfig_idempotent
    (convert : List (Config σ) → κ → List (Config σ) × Option (GoError ε))
    (key : String)
    (store : ConfigStore σ) (config : Config σ) (ci : κ) (L : List (Config σ))
    (hconv : convert [config] ci = (L, none)) :
    (DeleteMulticlusterConfig convert key
        (store.removeAll (DeleteMulticlusterConfig convert key store config ci).1)
        config ci).1 = [] ∧
      causes (DeleteMulticlusterConfig convert key
        (store.removeAll (DeleteMulticlusterConfig convert key store config ci).1)
        config ci).2 =
        (L.filter (fun c => store.provenanced key c || store.missing c)).map
          (fun c => GoError.errorf
            (config.Typ ++ " " ++ config.Name ++ "." ++ config.Namespace
              ++ " should have been realized by "
              ++ c.Typ ++ " " ++ c.Name ++ "." ++ c.Namespace ++ "; skipping")) ∧
      (causes (DeleteMulticlusterConfig convert key
        (store.removeAll (DeleteMulticlusterConfig convert key store config ci).1)
        config ci).2).length =
        (DeleteMulticlusterConfig convert key store config ci).1.length +
          (causes (DeleteMulticlusterConfig convert key store config ci).2).length := by
  have hD : (DeleteMulticlusterConfig convert key store config ci).1 =
      (L.filter (store.provenanced key)).map Config.clearSpec := by
    rw [delete_eq convert key store config ci L hconv]
  have hget := removeAll_deletions key store L
  rw [← hD] at hget
  generalize store.removeAll (DeleteMulticlusterConfig convert key store config ci).1 = store2
    at hget ⊢
  have hprov : L.filter (store2.provenanced key) = [] := by
    rw [List.filter_eq_nil_iff]
    intro c hc
    have h := hget c hc
    by_cases hp : store.provenanced key c = true
    · rw [if_pos hp] at h
      simp [ConfigStore.provenanced, h]
    · rw [if_neg hp] at h
      unfold ConfigStore.provenanced at hp ⊢
      rw [h]
      exact hp
  have hmiss : L.filter store2.missing =
      L.filter (fun c => store.provenanced key c || store.missing c) := by
    apply List.filter_congr
    intro c hc
    have h := hget c hc
    by_cases hp : store.provenanced key c = true
    · rw [if_pos hp] at h
      simp [ConfigStore.missing, h, hp]
    · rw [if_neg hp] at h
      simp only [Bool.not_eq_true] at hp
      simp [ConfigStore.missing, h, hp]
  have causes_err : ∀ (st : ConfigStore σ),
      causes (DeleteMulticlusterConfig convert key st config ci).2 =
        (L.filter st.missing).map (fun c => GoError.errorf (realizedMessage config c)) := by
    intro st
    rw [delete_err_eq convert key st config ci L hconv]
    cases L.filter st.missing <;> simp [causes]
  refine ⟨?_, ?_, ?_⟩
  · rw [delete_eq convert key store2 config ci L hconv, hprov]
    rfl
  · rw [causes_err store2, hmiss]
    rfl
  · rw [causes_err store2, causes_err store, hmiss, hD]
    simp only [List.length_map]
    rw [← List.countP_eq_length_filter, ← List.countP_eq_length_filter,
      ← List.countP_eq_length_filter]
    apply countP_or_of_disjoint
    intro c _ h
    obtain ⟨o, ho, _⟩ := (provenanced_iff key store c).1 h.1
    rw [(missing_iff store c).1 h.2] at ho
    cases ho

/-- Witness of C17 on the example data: the first call deletes the first target; after its
removal the second call deletes nothing and reports the first and the third target. -/
theorem DeleteMulticlusterConfig_idempotent_witness :
    exConvert [exIntent] () = ([exVs, exDr, exSe], none) ∧
      (DeleteMulticlusterConfig exConvert exKey exStore exIntent ()).1 =
        [⟨"vs", "a", "ns", [], none⟩] ∧
      (DeleteMulticlusterConfig exConvert exKey
        (exStore.removeAll (DeleteMulticlusterConfig exConvert exKey exStore exIntent ()).1)
        exIntent ()).1 = [] ∧
      causes (DeleteMulticlusterConfig exConvert exKey
        (exStore.removeAll (DeleteMulticlusterConfig exConvert exKey exStore exIntent ()).1)
        exIntent ()).2 =
        [GoError.errorf "rsb b1.ns should have been realized by vs a.ns; skipping",
         GoError.errorf "rsb b1.ns should have been realized by se a.ns; skipping"] :=
  ⟨rfl, rfl,
   (DeleteMulticlusterConfig_idempotent exConvert exKey exStore exIntent ()
     [exVs, exDr, exSe] rfl).1,
   (DeleteMulticlusterConfig_idempotent exConvert exKey exStore exIntent ()
     [exVs, exDr, exSe] rfl).2.1.trans rfl⟩

end Reconcile
